import Mathlib

/-!
Verification development for the organization-management service in
`src/initial_working/app/main.py` (FastAPI + MongoDB tenant region
lifecycle manager).  The Python source is shallowly embedded: the
MongoDB state (the `organizations` and `admins` collections of the
master database, the per-tenant collections, and the ObjectId
generator) is a record threaded through pure Lean functions, one per
endpoint handler.  Machine-level concerns (the event loop, wire
formats, argon2 internals, JWT encoding) are abstracted exactly as the
spec treats them: opaque collaborators.
-/

namespace OrgService

/-! ### Character and string helpers

The Python code calls `slugify` from the python-slugify package and
then post-processes (`main.py` lines 103-106).  python-slugify is an
external library, not part of this repository. -/

/-- Lower-case ASCII letters and digits, the characters python-slugify
keeps as word characters (ASCII inputs). -/
def isAlnumLower (c : Char) : Bool :=
  decide (((97 : Nat) ≤ c.toNat ∧ c.toNat ≤ 122) ∨ ((48 : Nat) ≤ c.toNat ∧ c.toNat ≤ 57))

/-- Characters allowed by the `re.sub(r"[^a-z0-9\-]", "", ...)` filter
on line 105 of `main.py`. -/
def isSlugChar (c : Char) : Bool :=
  isAlnumLower c || decide (c = '-')

/-- ASCII model of Python `str.lower` (only A-Z are affected). -/
def toLowerCh (c : Char) : Char :=
  if (65 : Nat) ≤ c.toNat ∧ c.toNat ≤ 90 then Char.ofNat (c.toNat + 32) else c

/-- Whitespace stripped by Python `str.strip`. -/
def isPySpace (c : Char) : Bool :=
  decide (c.toNat = 32 ∨ c.toNat = 9 ∨ c.toNat = 10 ∨ c.toNat = 13)

/-- Core of the slugify pipeline: every maximal run of non-word
characters becomes a single hyphen, and trailing separator runs are
dropped.  Processing is structural on the head; `slugCore` may leave a
single leading hyphen, which `slugModel` strips. -/
def slugCore : List Char → List Char
  | [] => []
  | c :: cs =>
    let r := slugCore cs
    if isAlnumLower c then c :: r
    else
      match r with
      | [] => []
      | d :: ds => if d = '-' then d :: ds else '-' :: d :: ds

/-- Drop a leading run of hyphens (final edge-strip of the slugify
pipeline). -/
def dropHy (l : List Char) : List Char :=
  l.dropWhile (fun c => decide (c = '-'))

/-- A list of characters with no two adjacent hyphens. -/
def noDoubleHyphen : List Char → Bool
  | [] => true
  | [_] => true
  | c :: d :: cs => (decide (¬ (c = '-' ∧ d = '-'))) && noDoubleHyphen (d :: cs)

/-- Modelled from the spec: §4.1 describes the external slug library
(python-slugify, imported on line 12 of `main.py`, not part of this
repository) as "Lower-cases, transliterates to ASCII, replaces
whitespace/punctuation runs with single hyphens" and strips edge
separators.  This is that contract for ASCII inputs. -/
def slugModel (s : String) : String :=
  ⟨dropHy (slugCore (s.data.map toLowerCh))⟩

/-- The `s.lower()` plus `re.sub(r"[^a-z0-9\-]", "", s)` normalization
on line 105 of `main.py`. -/
def cleanSlug (s : String) : String :=
  ⟨(s.data.map toLowerCh).filter isSlugChar⟩

/-- `slugify_org` from `main.py` lines 103-106: slugify the name,
filter the result, and prefix the `org_` namespace tag. -/
def slugify_org (name : String) : String :=
  "org_" ++ cleanSlug (slugModel name)

/-- The prefix-free part of `slugify_org` (lines 104-105 without the
`org_` tag): slugify followed by the character filter. -/
def bodyNorm (s : String) : String :=
  cleanSlug (slugModel s)

/-- Model of Python `str.strip` (drop whitespace from both ends). -/
def pyStrip (s : String) : String :=
  ⟨(s.data.dropWhile isPySpace).rdropWhile isPySpace⟩

/-- Model of Python `str.lower` on ASCII strings. -/
def pyLower (s : String) : String :=
  ⟨s.data.map toLowerCh⟩

/-! ### Configuration (`main.py` lines 23-28, default values) -/

def MONGO_URI : String := "mongodb://localhost:27017"

def MASTER_DB : String := "master_db"

/-! ### Data model

The Mongo documents written by `main.py`.  ObjectIds are modelled by a
fresh-Nat counter `nextOid` in the database state; Python `str()` of an
ObjectId becomes `toString`.  Argon2 hashes are opaque values with
`verify (p, hash q) = (p = q)`, matching the §6 contract that
verification failures resolve to `false`. -/

/-- Opaque argon2 hash (external collaborator, §6 of the spec). -/
structure HashVal where
  plain : String
deriving DecidableEq, Repr

/-- Organization record (`org_doc` built on lines 201-208, patched with
`admin_user_id` on line 226). -/
structure OrgDoc where
  _id : Nat
  organization_name : String
  slug : String
  collection_name : String
  connection_details : String × String
  admin_user_id : Option String
  created_at : Nat
  updated_at : Nat
deriving DecidableEq, Repr

/-- Admin credential record (`admin_doc` built on lines 215-222,
optionally patched by `update_organization`). -/
structure AdminDoc where
  _id : String
  email : String
  password_hash : HashVal
  organization_id : String
  role : String
  created_at : Nat
  updated_at : Option Nat
deriving DecidableEq, Repr

/-- A document inside a tenant region; only the identifier matters for
migration, the rest is opaque payload.  `is_meta` marks the sentinel
schema document inserted on line 237. -/
structure RDoc where
  _id : String
  is_meta : Bool
  body : String
deriving DecidableEq, Repr

/-- The master database plus all tenant collections: the full mutable
state of the process.  `regions` is an association list keyed by
collection name (Mongo collection namespaces are unique). -/
structure DB where
  orgs : List OrgDoc
  admins : List AdminDoc
  regions : List (String × List RDoc)
  nextOid : Nat
deriving DecidableEq, Repr

/-- Python exceptions that escape a handler un-caught (FastAPI turns
them into an unclassified 500 response). -/
inductive PyExc
  | duplicateKey
  | noneSubscript
deriving DecidableEq, Repr

/-- Outcome classification: `http` is a deliberate `HTTPException`
raised by the handler; `unhandled` is an exception that propagated out
of the handler without classification. -/
inductive ApiError
  | http (code : Nat) (detail : String)
  | unhandled (e : PyExc)
deriving DecidableEq, Repr

/-- Equality of operation outcomes is decidable (used to evaluate the
embedding at concrete inputs). -/
instance {ε α : Type} [DecidableEq ε] [DecidableEq α] : DecidableEq (Except ε α) := fun a b =>
  match a, b with
  | .error e1, .error e2 =>
    if h : e1 = e2 then .isTrue (by rw [h]) else .isFalse (by intro hh; cases hh; exact h rfl)
  | .ok v1, .ok v2 =>
    if h : v1 = v2 then .isTrue (by rw [h]) else .isFalse (by intro hh; cases hh; exact h rfl)
  | .error _, .ok _ => .isFalse (by intro hh; cases hh)
  | .ok _, .error _ => .isFalse (by intro hh; cases hh)

/-! ### Collection primitives -/

/-- Update the first element satisfying `p` (Mongo `update_one`). -/
def updateFirst (p : α → Bool) (f : α → α) : List α → List α
  | [] => []
  | x :: xs => if p x then f x :: xs else x :: updateFirst p f xs

/-- Delete the first element satisfying `p` (Mongo `delete_one`). -/
def deleteFirst (p : α → Bool) : List α → List α
  | [] => []
  | x :: xs => if p x then xs else x :: deleteFirst p xs

/-- `find_one({"slug": slug})` on the organizations collection:
first match in natural (insertion) order. -/
def orgsFindSlug (l : List OrgDoc) (slug : String) : Option OrgDoc :=
  l.find? (fun o => decide (o.slug = slug))

/-- `insert_one` on the organizations collection.  The unique index on
`slug` (line 84) makes the insert the authoritative uniqueness check:
a slug collision raises `DuplicateKeyError`. -/
def orgsInsert (db : DB) (build : Nat → OrgDoc) : Except PyExc (Nat × DB) :=
  let d := build db.nextOid
  if db.orgs.any (fun o => decide (o.slug = d.slug)) then
    .error .duplicateKey
  else
    .ok (db.nextOid, { db with orgs := db.orgs ++ [d], nextOid := db.nextOid + 1 })

/-- `insert_one` on the admins collection; only the always-present
`_id` uniqueness can reject (the `(organization_id, email)` index on
line 86 is non-unique). -/
def adminsInsert (db : DB) (d : AdminDoc) : Except PyExc DB :=
  if db.admins.any (fun a => decide (a._id = d._id)) then
    .error .duplicateKey
  else
    .ok { db with admins := db.admins ++ [d] }

/-- Look up a tenant collection's documents by name. -/
def regionFind (rs : List (String × List RDoc)) (n : String) : Option (List RDoc) :=
  (rs.find? (fun e => decide (e.fst = n))).map Prod.snd

/-- Replace (or create) the contents of a named tenant collection. -/
def regionSet : List (String × List RDoc) → String → List RDoc → List (String × List RDoc)
  | [], n, ds => [(n, ds)]
  | e :: rs, n, ds => if e.fst = n then (e.fst, ds) :: rs else e :: regionSet rs n ds

/-- Drop a tenant collection (Mongo `drop_collection`; dropping an
absent collection is a no-op). -/
def regionDrop (rs : List (String × List RDoc)) (n : String) : List (String × List RDoc) :=
  rs.filter (fun e => decide (¬ e.fst = n))

/-- `insert_many(batch, ordered=False)` into a tenant collection, with
the caller's `try/except: pass` applied: documents whose `_id` already
exists are silently skipped, the rest are appended in order; inserting
into an absent collection implicitly creates it. -/
def insertDocsTolerant (existing : List RDoc) (batch : List RDoc) : List RDoc :=
  batch.foldl
    (fun acc d => if acc.any (fun e => decide (e._id = d._id)) then acc else acc ++ [d])
    existing

/-- Tolerant bulk insert at the region-store level. -/
def regionInsertTolerant (rs : List (String × List RDoc)) (n : String) (batch : List RDoc) :
    List (String × List RDoc) :=
  regionSet rs n (insertDocsTolerant ((regionFind rs n).getD []) batch)

/-- `db.create_collection(name)` wrapped in the `try/except: pass` of
lines 229-233 and 308-311: creating an existing collection is
swallowed and leaves it untouched. -/
def tryCreateCollection (db : DB) (n : String) : DB :=
  if (regionFind db.regions n).isSome then db
  else { db with regions := regionSet db.regions n [] }

/-! ### Request and response shapes (the pydantic models) -/

structure OrgCreateIn where
  organization_name : String
  email : String
  password : String
deriving DecidableEq, Repr

structure OrgUpdateIn where
  organization_name : String
  new_organization_name : Option String
  email : Option String
  password : Option String
deriving DecidableEq, Repr

structure OrgDeleteIn where
  organization_name : String
deriving DecidableEq, Repr

structure AdminLoginIn where
  email : String
  password : String
deriving DecidableEq, Repr

structure CreateOut where
  organization_name : String
  collection_name : String
  admin_user_id : String
  org_id : String
deriving DecidableEq, Repr

structure GetOut where
  organization_name : String
  collection_name : String
  connection_details : String × String
  admin_user_id : Option String
  org_id : String
  created_at : Nat
deriving DecidableEq, Repr

/-- The `updates` dict assembled by `update_organization` (lines
291, 339-342); a field is `none` when the key was never set. -/
structure Updates where
  organization_name : Option String
  slug : Option String
  collection_name : Option String
  updated_at : Option Nat
deriving DecidableEq, Repr

structure DeleteOut where
  deleted_org : String
deriving DecidableEq, Repr

/-- The claims carried by an issued JWT (line 424); token encoding is
opaque, so the model keeps the claims themselves. -/
structure TokenClaims where
  admin_id : String
  org_id : String
deriving DecidableEq, Repr

/-! ### Observable storage events, for the temporal ordering claim -/

/-- Storage-layer calls made by the rename path, in program order. -/
inductive Event
  | createRegion (name : String)
  | copyBatch (dst : String) (docs : List RDoc)
  | repoint (orgId : Nat) (newSlug : String)
  | dropRegion (name : String)
  | credUpdate (adminId : String)
deriving DecidableEq, Repr

/-- Result of an instrumented operation: outcome, post-state, and the
storage events emitted along the way (also when an exception follows
them). -/
structure OpResult (α : Type) where
  result : Except ApiError α
  db : DB
  trace : List Event
deriving Repr

/-! ### Password hashing and tokens (external collaborators, §6) -/

def hash_password (password : String) : HashVal := ⟨password⟩

/-- `verify_password` (lines 118-126): all verification failures
resolve to `false`. -/
def verify_password (password : String) (hashed : HashVal) : Bool :=
  decide (hashed.plain = password)

/-! ### Create Organization (`main.py` lines 180-247)

The advisory slug pre-check (line 194) and the authoritative insert
(line 209) are separate storage reads; `midOrgs` is the interference
shallow-embedding the spec's §5 concurrency model: organization
records committed by concurrent requests between the pre-check and
the insert.  A sequential execution has `midOrgs = []`. -/

def create_organization (db0 : DB) (midOrgs : List OrgDoc) (p : OrgCreateIn) (now : Nat) :
    Except ApiError CreateOut × DB :=
  let org_name := pyStrip p.organization_name
  let email := pyStrip (pyLower p.email)
  let slug := slugify_org org_name
  match orgsFindSlug db0.orgs slug with
  | some _ => (.error (.http 400 "Organization name already exists"), db0)
  | none =>
    let db1 : DB := { db0 with orgs := db0.orgs ++ midOrgs }
    let build : Nat → OrgDoc := fun oid =>
      { _id := oid, organization_name := org_name, slug := slug, collection_name := slug,
        connection_details := (MASTER_DB, MONGO_URI), admin_user_id := none,
        created_at := now, updated_at := now }
    match orgsInsert db1 build with
    | .error e => (.error (.unhandled e), db1)
    | .ok (oid, db2) =>
      let org_id := toString oid
      let admin_id := "admin_" ++ email ++ "_" ++ toString now
      let admin_doc : AdminDoc :=
        { _id := admin_id, email := email, password_hash := hash_password p.password,
          organization_id := org_id, role := "admin", created_at := now, updated_at := none }
      match adminsInsert db2 admin_doc with
      | .error e => (.error (.unhandled e), db2)
      | .ok db3 =>
        let db4 : DB :=
          { db3 with orgs := (updateFirst (fun o => decide (o._id = oid))
              (fun o => { o with admin_user_id := some admin_id }) db3.orgs) }
        let db5 := tryCreateCollection db4 slug
        let metaDoc : RDoc :=
          { _id := "oid_" ++ toString db5.nextOid
            is_meta := true
            body := "schema_version 1" }
        let db6 : DB :=
          { db5 with
            regions := regionInsertTolerant db5.regions slug [metaDoc]
            nextOid := db5.nextOid + 1 }
        (.ok { organization_name := org_name
               collection_name := slug
               admin_user_id := admin_id
               org_id := org_id }, db6)

/-! ### Get Organization (`main.py` lines 253-267) -/

def get_organization (db : DB) (organization_name : String) :
    Except ApiError GetOut × DB :=
  let slug := slugify_org organization_name
  match orgsFindSlug db.orgs slug with
  | none => (.error (.http 404 "Organization not found"), db)
  | some org =>
    (.ok { organization_name := org.organization_name,
           collection_name := org.collection_name,
           connection_details := org.connection_details,
           admin_user_id := org.admin_user_id,
           org_id := toString org._id,
           created_at := org.created_at }, db)

/-! ### Update Organization (`main.py` lines 273-370) -/

/-- Python truthiness of `payload.new_organization_name` on line 295:
`None` and the empty string are both falsy. -/
def truthyStr : Option String → Option String
  | some s => if s = "" then none else some s
  | none => none

/-- Batch accumulation of the migration loop (lines 318-336): flush
once the batch length reaches `BATCH_SIZE`, then flush the final
partial batch. -/
def chunksGo (b : Nat) : List α → List α → List (List α)
  | [], acc => if acc.isEmpty then [] else [acc]
  | d :: ds, acc =>
    if b ≤ acc.length + 1 then (acc ++ [d]) :: chunksGo b ds []
    else chunksGo b ds (acc ++ [d])

def chunks (b : Nat) (l : List α) : List (List α) := chunksGo b l []

/-- Sequentially write the batches to the destination collection with
the tolerant bulk insert, recording one copy event per flush. -/
def migrateBatches (dst : String) : List (List RDoc) → DB → DB × List Event
  | [], db => (db, [])
  | b :: bs, db =>
    let db1 : DB := { db with regions := regionInsertTolerant db.regions dst b }
    let rest := migrateBatches dst bs db1
    (rest.fst, Event.copyBatch dst b :: rest.snd)

/-- `$set` patch of the master org document (line 343). -/
def applyUpdates (u : Updates) (o : OrgDoc) : OrgDoc :=
  { o with
    organization_name := u.organization_name.getD o.organization_name,
    slug := u.slug.getD o.slug,
    collection_name := u.collection_name.getD o.collection_name,
    updated_at := u.updated_at.getD o.updated_at }

/-- `$set` patch of the admin document (lines 361-368). -/
def applyAdminUpdates (e pw : Option String) (now : Nat) (a : AdminDoc) : AdminDoc :=
  { a with
    email := (e.map (fun x => pyStrip (pyLower x))).getD a.email,
    password_hash := (pw.map hash_password).getD a.password_hash,
    updated_at := some now }

/-- Admin-credential phase of `update_organization` (lines 354-368),
acting on the possibly refreshed org reference.  When the refreshed
reference is `None` the Python subscript `org["_id"]` raises an
unhandled TypeError. -/
def credPhase (db : DB) (orgAfter : Option OrgDoc) (upd : Updates) (evs : List Event)
    (e pw : Option String) (now : Nat) : OpResult Updates :=
  if e.isSome || pw.isSome then
    match orgAfter with
    | none => ⟨.error (.unhandled .noneSubscript), db, evs⟩
    | some o =>
      match db.admins.find? (fun a => decide (a.organization_id = toString o._id)) with
      | none => ⟨.error (.http 500 "Admin record missing for organization"), db, evs⟩
      | some admin =>
        ⟨.ok upd,
         { db with admins := (updateFirst (fun a => decide (a._id = admin._id))
             (applyAdminUpdates e pw now) db.admins) },
         evs ++ [Event.credUpdate admin._id]⟩
  else ⟨.ok upd, db, evs⟩

/-- `update_organization` (lines 273-370): optional rename with the
batched copy-then-repoint-then-drop migration, then optional admin
credential updates.  `batchSize` is the `BATCH_SIZE` configuration
(line 28, default 500). -/
def update_organization (batchSize : Nat) (db0 : DB) (p : OrgUpdateIn) (now : Nat) :
    OpResult Updates :=
  let current_slug := slugify_org p.organization_name
  match orgsFindSlug db0.orgs current_slug with
  | none => ⟨.error (.http 404 "Organization not found"), db0, []⟩
  | some org =>
    match truthyStr p.new_organization_name with
    | none => credPhase db0 (some org) ⟨none, none, none, none⟩ [] p.email p.password now
    | some nn0 =>
      let new_name := pyStrip nn0
      let new_slug := slugify_org new_name
      if new_slug = current_slug then
        credPhase db0 (some org) ⟨none, none, none, none⟩ [] p.email p.password now
      else
        match orgsFindSlug db0.orgs new_slug with
        | some _ => ⟨.error (.http 400 "New organization name already exists"), db0, []⟩
        | none =>
          let db1 := tryCreateCollection db0 new_slug
          let src := (regionFind db1.regions current_slug).getD []
          let mb := migrateBatches new_slug (chunks batchSize src) db1
          let upd : Updates := ⟨some new_name, some new_slug, some new_slug, some now⟩
          let db3 : DB := { mb.fst with orgs := (updateFirst (fun o => decide (o._id = org._id))
              (applyUpdates upd) mb.fst.orgs) }
          let db4 : DB := { db3 with regions := regionDrop db3.regions current_slug }
          let evs := Event.createRegion new_slug :: mb.snd
              ++ [Event.repoint org._id new_slug, Event.dropRegion current_slug]
          credPhase db4 (orgsFindSlug db4.orgs new_slug) upd evs p.email p.password now

/-! ### Auth dependency and Delete Organization (`main.py` 147-162, 376-407) -/

/-- Result of `decode_jwt` on the bearer token: JWT verification is the
opaque §6 collaborator, so the model starts from its outcome. -/
inductive TokenIn
  | valid (admin_id : Option String) (org_id : Option String)
  | expired
  | invalid
deriving DecidableEq, Repr

/-- Verified caller context produced by `get_current_admin`. -/
structure Cred where
  admin : AdminDoc
  org_id : String
deriving DecidableEq, Repr

/-- `get_current_admin` (lines 147-162): decode the token, require
both claims (Python truthiness: absent or empty means missing), load
the admin record, and require its organization to match. -/
def get_current_admin (db : DB) (t : TokenIn) : Except ApiError Cred :=
  match t with
  | .expired => .error (.http 401 "Token expired")
  | .invalid => .error (.http 401 "Invalid token")
  | .valid aid oid =>
    match aid, oid with
    | some a, some o =>
      if a = "" ∨ o = "" then .error (.http 401 "Invalid token payload")
      else
        match db.admins.find? (fun ad => decide (ad._id = a)) with
        | none => .error (.http 401 "Admin not found")
        | some ad =>
          if ¬ ad.organization_id = o then .error (.http 403 "Organization mismatch")
          else .ok { admin := ad, org_id := o }
    | _, _ => .error (.http 401 "Invalid token payload")

/-- `delete_organization` (lines 376-407), with the caller context
already resolved by the auth dependency. -/
def delete_organization (db0 : DB) (p : OrgDeleteIn) (cred : Cred) :
    Except ApiError DeleteOut × DB :=
  let slug := slugify_org p.organization_name
  match orgsFindSlug db0.orgs slug with
  | none => (.error (.http 404 "Organization not found"), db0)
  | some org =>
    if ¬ toString org._id = cred.org_id then
      (.error (.http 403 "Not authorized to delete this organization"), db0)
    else
      let db1 : DB := { db0 with regions := regionDrop db0.regions slug }
      let db2 : DB := { db1 with admins :=
          (db1.admins.filter (fun a => decide (¬ a.organization_id = toString org._id))) }
      let db3 : DB := { db2 with orgs := deleteFirst (fun o => decide (o._id = org._id)) db2.orgs }
      (.ok { deleted_org := p.organization_name }, db3)

/-- The full `/org/delete` route: the `Depends(get_current_admin)`
dependency runs before the handler body. -/
def delete_endpoint (db : DB) (t : TokenIn) (p : OrgDeleteIn) :
    Except ApiError DeleteOut × DB :=
  match get_current_admin db t with
  | .error e => (.error e, db)
  | .ok cred => delete_organization db p cred

/-! ### Admin Login (`main.py` lines 413-425) -/

def admin_login (db : DB) (p : AdminLoginIn) : Except ApiError TokenClaims × DB :=
  match db.admins.find? (fun a => decide (a.email = pyStrip (pyLower p.email))) with
  | none => (.error (.http 401 "Invalid credentials"), db)
  | some admin =>
    if admin.password_hash.plain = "" ∨ ¬ verify_password p.password admin.password_hash then
      (.error (.http 401 "Invalid credentials"), db)
    else
      (.ok { admin_id := admin._id, org_id := admin.organization_id }, db)

/-! ### Outcome classifiers -/

/-- Authentication and authorization failures in the §7 taxonomy:
`Unauthorized` (HTTP 401) and `Forbidden` (HTTP 403). -/
def isAuthFailure : ApiError → Bool
  | .http 401 _ => true
  | .http 403 _ => true
  | _ => false

/-- Whether an operation outcome is an auth failure. -/
def exceptAuthFailure : Except ApiError α → Bool
  | .error e => isAuthFailure e
  | .ok _ => false

/-! ### Concrete states used by the witnesses -/

def dbEmpty : DB := { orgs := [], admins := [], regions := [], nextOid := 0 }

def orgAcme : OrgDoc :=
  { _id := 0
    organization_name := "Acme"
    slug := "org_acme"
    collection_name := "org_acme"
    connection_details := (MASTER_DB, MONGO_URI)
    admin_user_id := some "adm"
    created_at := 0
    updated_at := 0 }

def adminAcme : AdminDoc :=
  { _id := "adm"
    email := "a@acme.com"
    password_hash := ⟨"secret1"⟩
    organization_id := "0"
    role := "admin"
    created_at := 0
    updated_at := none }

def adminOther : AdminDoc :=
  { _id := "adm2"
    email := "a@acme.com"
    password_hash := ⟨"secret2"⟩
    organization_id := "7"
    role := "admin"
    created_at := 0
    updated_at := none }

def srcDocsAcme : List RDoc :=
  [⟨"d1", false, "x1"⟩, ⟨"d2", false, "x2"⟩, ⟨"d3", false, "x3"⟩,
   ⟨"d4", false, "x4"⟩, ⟨"d5", false, "x5"⟩]

def dbAcme : DB :=
  { orgs := [orgAcme], admins := [adminAcme], regions := [("org_acme", srcDocsAcme)], nextOid := 1 }

def dbNoAdmin : DB := { orgs := [orgAcme], admins := [], regions := [], nextOid := 1 }

def dbTwoAdmins : DB := { orgs := [], admins := [adminAcme, adminOther], regions := [], nextOid := 0 }

/-- An organization record committed by a concurrent create between the
advisory pre-check and the authoritative insert (same slug). -/
def orgInterfering : OrgDoc :=
  { _id := 42
    organization_name := "ACME"
    slug := "org_acme"
    collection_name := "org_acme"
    connection_details := (MASTER_DB, MONGO_URI)
    admin_user_id := none
    created_at := 0
    updated_at := 0 }

def createAcmeIn : OrgCreateIn :=
  { organization_name := "Acme", email := "a@acme.com", password := "secret1" }

/-- The payload returned by a successful create of "Acme" on the empty
state at time 0. -/
def createOutAcme : CreateOut :=
  { organization_name := "Acme"
    collection_name := "org_acme"
    admin_user_id := "admin_a@acme.com_0"
    org_id := "0" }

/-! ### Basic string plumbing -/

theorem string_data_inj {a b : String} (h : a.data = b.data) : a = b := by
  cases a
  cases b
  exact congrArg String.mk h

theorem string_data_append (a b : String) : (a ++ b).data = a.data ++ b.data := by
  cases a
  cases b
  rfl

/-! ### Lemmas about the slug deriver -/

theorem slugCore_cons_alnum {c : Char} (cs : List Char) (h : isAlnumLower c = true) :
    slugCore (c :: cs) = c :: slugCore cs := by
  simp [slugCore, h]

theorem slugCore_cons_nonword_nil {c : Char} {cs : List Char}
    (h : isAlnumLower c = false) (h2 : slugCore cs = []) : slugCore (c :: cs) = [] := by
  simp [slugCore, h, h2]

theorem slugCore_cons_nonword_hyph {c : Char} {cs ds : List Char}
    (h : isAlnumLower c = false) (h2 : slugCore cs = '-' :: ds) :
    slugCore (c :: cs) = '-' :: ds := by
  simp [slugCore, h, h2]

theorem slugCore_cons_nonword_other {c d : Char} {cs ds : List Char}
    (h : isAlnumLower c = false) (h2 : slugCore cs = d :: ds) (hd : ¬ d = '-') :
    slugCore (c :: cs) = '-' :: d :: ds := by
  simp [slugCore, h, h2, hd]

theorem isSlugChar_of_alnum {c : Char} (h : isAlnumLower c = true) : isSlugChar c = true := by
  simp [isSlugChar, h]

theorem ne_hyph_of_alnum {c : Char} (h : isAlnumLower c = true) : ¬ c = '-' := by
  intro hc
  subst hc
  exact absurd h (by decide)

theorem slugCore_chars : ∀ (l : List Char), ∀ c ∈ slugCore l, isSlugChar c = true := by
  intro l
  induction l with
  | nil => intro c hc; simp [slugCore] at hc
  | cons a as ih =>
    intro c hc
    by_cases ha : isAlnumLower a = true
    · rw [slugCore_cons_alnum as ha] at hc
      rcases List.mem_cons.mp hc with rfl | h
      · exact isSlugChar_of_alnum ha
      · exact ih c h
    · rw [Bool.not_eq_true] at ha
      cases hs : slugCore as with
      | nil => rw [slugCore_cons_nonword_nil ha hs] at hc; simp at hc
      | cons d ds =>
        by_cases hd : d = '-'
        · subst hd
          rw [slugCore_cons_nonword_hyph ha hs] at hc
          exact ih c (hs ▸ hc)
        · rw [slugCore_cons_nonword_other ha hs hd] at hc
          rcases List.mem_cons.mp hc with rfl | h
          · decide
          · exact ih c (hs ▸ h)

theorem slugCore_getLast : ∀ (l : List Char), ¬ (slugCore l).getLast? = some '-' := by
  intro l
  induction l with
  | nil => simp [slugCore]
  | cons a as ih =>
    by_cases ha : isAlnumLower a = true
    · rw [slugCore_cons_alnum as ha]
      cases hs : slugCore as with
      | nil =>
        simp only [List.getLast?_singleton, Option.some.injEq]
        exact ne_hyph_of_alnum ha
      | cons d ds =>
        rw [List.getLast?_cons_cons]
        exact hs ▸ ih
    · rw [Bool.not_eq_true] at ha
      cases hs : slugCore as with
      | nil => rw [slugCore_cons_nonword_nil ha hs]; simp
      | cons d ds =>
        by_cases hd : d = '-'
        · subst hd
          rw [slugCore_cons_nonword_hyph ha hs]
          exact hs ▸ ih
        · rw [slugCore_cons_nonword_other ha hs hd, List.getLast?_cons_cons]
          exact hs ▸ ih

theorem slugCore_noDouble : ∀ (l : List Char), noDoubleHyphen (slugCore l) = true := by
  intro l
  induction l with
  | nil => simp [slugCore, noDoubleHyphen]
  | cons a as ih =>
    by_cases ha : isAlnumLower a = true
    · rw [slugCore_cons_alnum as ha]
      cases hs : slugCore as with
      | nil => simp [noDoubleHyphen]
      | cons d ds =>
        have hdd : noDoubleHyphen (d :: ds) = true := hs ▸ ih
        simp only [noDoubleHyphen, hdd, Bool.and_true, decide_eq_true_iff]
        intro had
        exact ne_hyph_of_alnum ha had.1
    · rw [Bool.not_eq_true] at ha
      cases hs : slugCore as with
      | nil => rw [slugCore_cons_nonword_nil ha hs]; rfl
      | cons d ds =>
        have hdd : noDoubleHyphen (d :: ds) = true := hs ▸ ih
        by_cases hd : d = '-'
        · subst hd
          rw [slugCore_cons_nonword_hyph ha hs]
          exact hdd
        · rw [slugCore_cons_nonword_other ha hs hd]
          simp only [noDoubleHyphen, hdd, Bool.and_true, decide_eq_true_iff]
          intro had
          exact hd had.2

theorem noDoubleHyphen_tail {a : Char} {as : List Char}
    (h : noDoubleHyphen (a :: as) = true) : noDoubleHyphen as = true := by
  cases as with
  | nil => rfl
  | cons d ds =>
    simp only [noDoubleHyphen, Bool.and_eq_true] at h
    exact h.2

theorem slugCore_fixed : ∀ (l : List Char), (∀ c ∈ l, isSlugChar c = true) →
    noDoubleHyphen l = true → ¬ l.getLast? = some '-' → slugCore l = l := by
  intro l
  induction l with
  | nil => intro _ _ _; rfl
  | cons a as ih =>
    intro hchars hnd hlast
    have htail : slugCore as = as := by
      cases as with
      | nil => rfl
      | cons b bs =>
        refine ih (fun c hc => hchars c (List.mem_cons_of_mem a hc))
          (noDoubleHyphen_tail hnd) ?_
        rw [List.getLast?_cons_cons] at hlast
        exact hlast
    by_cases ha : isAlnumLower a = true
    · rw [slugCore_cons_alnum as ha, htail]
    · rw [Bool.not_eq_true] at ha
      have hah : a = '-' := by
        have := hchars a (List.mem_cons_self a as)
        simp only [isSlugChar, Bool.or_eq_true, decide_eq_true_iff] at this
        rcases this with h | h
        · rw [h] at ha; exact absurd ha (by simp)
        · exact h
      cases as with
      | nil =>
        subst hah
        simp [List.getLast?_singleton] at hlast
      | cons d ds =>
        have hd : ¬ d = '-' := by
          subst hah
          intro hdh
          subst hdh
          simp [noDoubleHyphen] at hnd
        rw [slugCore_cons_nonword_other ha htail hd, hah]

theorem slugCore_eq_nil_of_nonword : ∀ (ws : List Char),
    (∀ c ∈ ws, isAlnumLower c = false) → slugCore ws = [] := by
  intro ws
  induction ws with
  | nil => intro _; rfl
  | cons a as ih =>
    intro h
    exact slugCore_cons_nonword_nil (h a (List.mem_cons_self a as))
      (ih (fun c hc => h c (List.mem_cons_of_mem a hc)))

theorem slugCore_append_nonword : ∀ (l ws : List Char),
    (∀ c ∈ ws, isAlnumLower c = false) → slugCore (l ++ ws) = slugCore l := by
  intro l ws hw
  induction l with
  | nil => simpa using slugCore_eq_nil_of_nonword ws hw
  | cons a as ih =>
    rw [List.cons_append]
    by_cases ha : isAlnumLower a = true
    · rw [slugCore_cons_alnum _ ha, slugCore_cons_alnum _ ha, ih]
    · rw [Bool.not_eq_true] at ha
      cases hs : slugCore as with
      | nil =>
        rw [slugCore_cons_nonword_nil ha (ih.trans hs), slugCore_cons_nonword_nil ha hs]
      | cons d ds =>
        by_cases hd : d = '-'
        · subst hd
          rw [slugCore_cons_nonword_hyph ha (ih.trans hs), slugCore_cons_nonword_hyph ha hs]
        · rw [slugCore_cons_nonword_other ha (ih.trans hs) hd,
            slugCore_cons_nonword_other ha hs hd]

theorem dropHy_slugCore_cons_nonword (w : Char) (l : List Char)
    (hw : isAlnumLower w = false) :
    dropHy (slugCore (w :: l)) = dropHy (slugCore l) := by
  cases hs : slugCore l with
  | nil => rw [slugCore_cons_nonword_nil hw hs]
  | cons d ds =>
    by_cases hd : d = '-'
    · subst hd
      rw [slugCore_cons_nonword_hyph hw hs]
    · rw [slugCore_cons_nonword_other hw hs hd]
      simp [dropHy, List.dropWhile_cons, hd]

theorem dropHy_slugCore_append_left_nonword : ∀ (ws l : List Char),
    (∀ c ∈ ws, isAlnumLower c = false) →
    dropHy (slugCore (ws ++ l)) = dropHy (slugCore l) := by
  intro ws
  induction ws with
  | nil => intro l _; rfl
  | cons a as ih =>
    intro l h
    rw [List.cons_append, dropHy_slugCore_cons_nonword a _ (h a (List.mem_cons_self a as))]
    exact ih l (fun c hc => h c (List.mem_cons_of_mem a hc))

/-! ### Fixed points of the normalization pipeline -/

theorem toLowerCh_fixed_of_slugChar {c : Char} (h : isSlugChar c = true) : toLowerCh c = c := by
  simp only [isSlugChar, isAlnumLower, Bool.or_eq_true, decide_eq_true_iff] at h
  rcases h with h | h
  · unfold toLowerCh
    rw [if_neg (by omega)]
  · subst h
    decide

theorem map_toLowerCh_fixed : ∀ (l : List Char), (∀ c ∈ l, isSlugChar c = true) →
    l.map toLowerCh = l := by
  intro l
  induction l with
  | nil => intro _; rfl
  | cons a as ih =>
    intro h
    rw [List.map_cons, toLowerCh_fixed_of_slugChar (h a (List.mem_cons_self a as)),
      ih (fun c hc => h c (List.mem_cons_of_mem a hc))]

theorem noDoubleHyphen_append_right : ∀ (xs t : List Char),
    noDoubleHyphen (xs ++ t) = true → noDoubleHyphen t = true := by
  intro xs
  induction xs with
  | nil => intro t h; exact h
  | cons a as ih => intro t h; exact ih t (noDoubleHyphen_tail h)

theorem noDoubleHyphen_dropHy {l : List Char} (h : noDoubleHyphen l = true) :
    noDoubleHyphen (dropHy l) = true := by
  obtain ⟨pre, hpre⟩ := List.dropWhile_suffix (l := l) (fun c => decide (c = '-'))
  have hpre2 : pre ++ dropHy l = l := hpre
  exact noDoubleHyphen_append_right pre _ (by rw [hpre2]; exact h)

theorem getLast_dropHy {l : List Char} (h : ¬ l.getLast? = some '-') :
    ¬ (dropHy l).getLast? = some '-' := by
  intro hc
  apply h
  obtain ⟨pre, hpre⟩ := List.dropWhile_suffix (l := l) (fun c => decide (c = '-'))
  have hpre2 : pre ++ dropHy l = l := hpre
  rw [← hpre2, List.getLast?_append, hc]
  rfl

theorem dropHy_head {l : List Char} : ∀ d ds, dropHy l = d :: ds → ¬ d = '-' := by
  intro d ds h
  have h2 := List.head?_dropWhile_not (fun c => decide (c = '-')) l
  have h3 : (l.dropWhile fun c => decide (c = '-')) = d :: ds := h
  rw [h3] at h2
  simp only [List.head?_cons, decide_eq_false_iff_not] at h2
  exact h2

theorem dropHy_fixed {l : List Char} (h : ∀ d ds, l = d :: ds → ¬ d = '-') : dropHy l = l := by
  cases l with
  | nil => rfl
  | cons d ds =>
    simp [dropHy, List.dropWhile_cons, h d ds rfl]

theorem dropHy_idem (l : List Char) : dropHy (dropHy l) = dropHy l :=
  dropHy_fixed (fun d ds h => dropHy_head d ds h)

theorem slugModel_chars (s : String) : ∀ c ∈ (slugModel s).data, isSlugChar c = true := by
  intro c hc
  exact slugCore_chars _ c (List.dropWhile_subset _ hc)

theorem slugModel_noDouble (s : String) : noDoubleHyphen (slugModel s).data = true :=
  noDoubleHyphen_dropHy (slugCore_noDouble _)

theorem slugModel_getLast (s : String) : ¬ (slugModel s).data.getLast? = some '-' :=
  getLast_dropHy (slugCore_getLast _)

theorem slugModel_head (s : String) : ∀ d ds, (slugModel s).data = d :: ds → ¬ d = '-' :=
  fun d ds h => dropHy_head d ds h

theorem slugModel_slugModel (s : String) : slugModel (slugModel s) = slugModel s := by
  apply string_data_inj
  show dropHy (slugCore ((slugModel s).data.map toLowerCh)) = (slugModel s).data
  rw [map_toLowerCh_fixed _ (slugModel_chars s),
    slugCore_fixed _ (slugModel_chars s) (slugModel_noDouble s) (slugModel_getLast s)]
  exact dropHy_idem (slugCore (s.data.map toLowerCh))

theorem bodyNorm_eq_slugModel (s : String) : bodyNorm s = slugModel s := by
  apply string_data_inj
  show ((slugModel s).data.map toLowerCh).filter isSlugChar = (slugModel s).data
  rw [map_toLowerCh_fixed _ (slugModel_chars s)]
  exact List.filter_eq_self.mpr (slugModel_chars s)

theorem bodyNorm_idem (n : String) : bodyNorm (bodyNorm n) = bodyNorm n := by
  simp [bodyNorm_eq_slugModel, slugModel_slugModel]

/-! ### What re-deriving a slug actually produces -/

theorem slugCore_underscore_normalized (b : List Char)
    (hfix : slugCore b = b) (hhead : ∀ d ds, b = d :: ds → ¬ d = '-') :
    slugCore ('_' :: b) = if b.isEmpty then [] else '-' :: b := by
  cases hb : b with
  | nil => rw [List.isEmpty_nil, if_pos rfl]; exact slugCore_cons_nonword_nil (by decide) rfl
  | cons d ds =>
    rw [List.isEmpty_cons, if_neg (by simp)]
    rw [hb] at hfix
    exact slugCore_cons_nonword_other (by decide) hfix (hhead d ds hb)

theorem slugModel_orgtag (b : String)
    (hchars : ∀ c ∈ b.data, isSlugChar c = true)
    (hnd : noDoubleHyphen b.data = true)
    (hlast : ¬ b.data.getLast? = some '-')
    (hhead : ∀ d ds, b.data = d :: ds → ¬ d = '-') :
    slugModel ("org_" ++ b) = "org" ++ (if b = "" then "" else "-" ++ b) := by
  apply string_data_inj
  have hmap : ("org_" ++ b).data.map toLowerCh = 'o' :: 'r' :: 'g' :: '_' :: b.data := by
    rw [string_data_append, show ("org_" : String).data = ['o', 'r', 'g', '_'] from rfl,
      List.map_append, show List.map toLowerCh ['o', 'r', 'g', '_'] = ['o', 'r', 'g', '_'] from by decide,
      map_toLowerCh_fixed _ hchars]
    rfl
  show dropHy (slugCore (("org_" ++ b).data.map toLowerCh)) = _
  rw [hmap, slugCore_cons_alnum _ (by decide), slugCore_cons_alnum _ (by decide),
    slugCore_cons_alnum _ (by decide),
    slugCore_underscore_normalized b.data (slugCore_fixed _ hchars hnd hlast) hhead]
  rw [show dropHy ('o' :: 'r' :: 'g' :: (if b.data.isEmpty then [] else '-' :: b.data))
      = 'o' :: 'r' :: 'g' :: (if b.data.isEmpty then [] else '-' :: b.data) from by
    simp [dropHy, List.dropWhile_cons]]
  by_cases hb : b = ""
  · rw [if_pos (by rw [hb]; rfl), if_pos hb, string_data_append]
    rfl
  · have hbd : ¬ b.data.isEmpty = true := by
      intro h
      exact hb (string_data_inj (List.isEmpty_iff.mp h))
    rw [if_neg hbd, if_neg hb, string_data_append, string_data_append]
    rfl

theorem slugify_org_body (n : String) : slugify_org n = "org_" ++ bodyNorm n := rfl

theorem slugify_org_double (n : String) :
    slugify_org (slugify_org n) =
      "org_org" ++ (if bodyNorm n = "" then "" else "-" ++ bodyNorm n) := by
  have h1 : slugify_org (slugify_org n)
      = "org_" ++ slugModel ("org_" ++ bodyNorm n) := by
    rw [slugify_org_body (slugify_org n), bodyNorm_eq_slugModel, slugify_org_body n]
  rw [h1, bodyNorm_eq_slugModel n,
    slugModel_orgtag _ (slugModel_chars n) (slugModel_noDouble n) (slugModel_getLast n)
      (slugModel_head n)]
  apply string_data_inj
  rw [string_data_append, string_data_append, string_data_append]
  rfl

theorem not_alnum_of_space {c : Char} (h : isPySpace c = true) : isAlnumLower c = false := by
  simp only [isPySpace, decide_eq_true_iff] at h
  simp only [isAlnumLower, decide_eq_false_iff_not]
  omega

theorem toLowerCh_fixed_of_space {c : Char} (h : isPySpace c = true) : toLowerCh c = c := by
  simp only [isPySpace, decide_eq_true_iff] at h
  unfold toLowerCh
  rw [if_neg (by omega)]

theorem rdropWhile_append_rtakeWhile (p : α → Bool) (l : List α) :
    l.rdropWhile p ++ l.rtakeWhile p = l := by
  simp only [List.rdropWhile, List.rtakeWhile]
  rw [← List.reverse_append, List.takeWhile_append_dropWhile, List.reverse_reverse]

theorem slugModel_pyStrip (s : String) : slugModel (pyStrip s) = slugModel s := by
  apply string_data_inj
  have hfront : ∀ c ∈ (s.data.takeWhile isPySpace).map toLowerCh, isAlnumLower c = false := by
    intro c hc
    obtain ⟨c0, hc0, rfl⟩ := List.mem_map.mp hc
    have hsp : isPySpace c0 = true := List.mem_takeWhile_imp hc0
    rw [toLowerCh_fixed_of_space hsp]
    exact not_alnum_of_space hsp
  have hback : ∀ c ∈ ((s.data.dropWhile isPySpace).rtakeWhile isPySpace).map toLowerCh,
      isAlnumLower c = false := by
    intro c hc
    obtain ⟨c0, hc0, rfl⟩ := List.mem_map.mp hc
    have hsp : isPySpace c0 = true := List.mem_rtakeWhile_imp hc0
    rw [toLowerCh_fixed_of_space hsp]
    exact not_alnum_of_space hsp
  have h1 : dropHy (slugCore (s.data.map toLowerCh))
      = dropHy (slugCore ((s.data.dropWhile isPySpace).map toLowerCh)) := by
    conv_lhs => rw [← List.takeWhile_append_dropWhile isPySpace s.data]
    rw [List.map_append]
    exact dropHy_slugCore_append_left_nonword _ _ hfront
  have h2 : dropHy (slugCore ((s.data.dropWhile isPySpace).map toLowerCh))
      = dropHy (slugCore (((s.data.dropWhile isPySpace).rdropWhile isPySpace).map toLowerCh)) := by
    conv_lhs => rw [← rdropWhile_append_rtakeWhile isPySpace (s.data.dropWhile isPySpace)]
    rw [List.map_append, slugCore_append_nonword _ _ hback]
  exact (h1.trans h2).symm

theorem slugify_org_pyStrip (s : String) : slugify_org (pyStrip s) = slugify_org s := by
  rw [slugify_org_body, slugify_org_body, bodyNorm_eq_slugModel, bodyNorm_eq_slugModel,
    slugModel_pyStrip]

theorem slugify_org_not_idem (n : String) :
    ¬ slugify_org (slugify_org n) = slugify_org n := by
  intro h
  have hlen : (slugify_org (slugify_org n)).data.length = (slugify_org n).data.length :=
    congrArg (fun s => s.data.length) h
  rw [slugify_org_double n] at hlen
  have hr : (slugify_org n).data = ['o', 'r', 'g', '_'] ++ (bodyNorm n).data := by
    rw [slugify_org_body n, string_data_append]
  rw [hr, string_data_append, List.length_append, List.length_append] at hlen
  by_cases hb : bodyNorm n = ""
  · rw [if_pos hb, hb] at hlen
    simp at hlen
  · rw [if_neg hb, string_data_append, List.length_append] at hlen
    simp only [List.length_cons] at hlen
    have h7 : ("org_org" : String).data.length = 7 := rfl
    have h4 : (['o', 'r', 'g', '_'] : List Char).length = 4 := rfl
    have h1 : ("-" : String).data.length = 1 := rfl
    omega

/-! ## Claim C3: slug derivation idempotence -/

/-- C3 counterexample: the slug derivation is not idempotent at the
concrete name "Acme": `slugify_org "Acme" = "org_acme"` but deriving
again gives `"org_org-acme"` — the fixed `org_` prefix is re-processed,
its underscore becoming a hyphen. -/
theorem C3_counterexample :
    slugify_org "Acme" = "org_acme" ∧
    slugify_org (slugify_org "Acme") = "org_org-acme" ∧
    ¬ slugify_org (slugify_org "Acme") = slugify_org "Acme" :=
  ⟨by decide, by decide, by decide⟩

/-- C3 (amended): the prefix-free normalization (slugify followed by
the character filter, `main.py` lines 104-105) is idempotent, but the
full derivation `slugify_org` never is: for every name, re-deriving
yields `org_org-<body>` (`org_org` when the body is empty) instead of
`org_<body>`, because the fixed `org_` prefix is itself re-slugified. -/
theorem C3_amended_slug_idempotence (n : String) :
    bodyNorm (bodyNorm n) = bodyNorm n ∧
    slugify_org (slugify_org n)
      = "org_org" ++ (if bodyNorm n = "" then "" else "-" ++ bodyNorm n) ∧
    ¬ slugify_org (slugify_org n) = slugify_org n :=
  ⟨bodyNorm_idem n, slugify_org_double n, slugify_org_not_idem n⟩

/-! ### Properties of the credential-update phase -/

theorem credPhase_orgs (db : DB) (o : Option OrgDoc) (u : Updates) (evs : List Event)
    (e pw : Option String) (now : Nat) :
    (credPhase db o u evs e pw now).db.orgs = db.orgs := by
  unfold credPhase
  split <;> (try split) <;> (try split) <;> rfl

theorem credPhase_regions (db : DB) (o : Option OrgDoc) (u : Updates) (evs : List Event)
    (e pw : Option String) (now : Nat) :
    (credPhase db o u evs e pw now).db.regions = db.regions := by
  unfold credPhase
  split <;> (try split) <;> (try split) <;> rfl

theorem credPhase_result_ok (db : DB) (o : Option OrgDoc) (u : Updates) (evs : List Event)
    (e pw : Option String) (now : Nat) (u2 : Updates) :
    (credPhase db o u evs e pw now).result = .ok u2 → u2 = u := by
  unfold credPhase
  split <;> (try split) <;> (try split) <;> intro h <;> simp only [Except.ok.injEq] at h <;>
    first
    | exact h.symm
    | cases h

theorem credPhase_no_auth (db : DB) (o : Option OrgDoc) (u : Updates) (evs : List Event)
    (e pw : Option String) (now : Nat) :
    exceptAuthFailure (credPhase db o u evs e pw now).result = false := by
  unfold credPhase
  split <;> (try split) <;> (try split) <;> rfl

theorem credPhase_trace (db : DB) (o : Option OrgDoc) (u : Updates) (evs : List Event)
    (e pw : Option String) (now : Nat) :
    ∃ creds, (credPhase db o u evs e pw now).trace = evs ++ creds ∧
      ∀ c ∈ creds, ∃ a2, c = Event.credUpdate a2 := by
  unfold credPhase
  split
  · split
    · exact ⟨[], by simp, by simp⟩
    · split
      · exact ⟨[], by simp, by simp⟩
      · refine ⟨[Event.credUpdate _], rfl, ?_⟩
        intro c hc
        simp only [List.mem_singleton] at hc
        exact ⟨_, hc⟩
  · exact ⟨[], by simp, by simp⟩

theorem credPhase_none_none (db : DB) (o : Option OrgDoc) (u : Updates) (evs : List Event)
    (now : Nat) :
    credPhase db o u evs none none now = ⟨.ok u, db, evs⟩ := rfl

/-! ### Properties of batching, tolerant insertion, and the region store -/

theorem chunksGo_flatten (b : Nat) : ∀ (l acc : List α),
    (chunksGo b l acc).flatten = acc ++ l := by
  intro l
  induction l with
  | nil =>
    intro acc
    by_cases h : acc.isEmpty = true
    · rw [List.isEmpty_iff.mp h]
      simp [chunksGo]
    · simp [chunksGo, h]
  | cons d ds ih =>
    intro acc
    by_cases h : b ≤ acc.length + 1
    · simp [chunksGo, h, ih]
    · simp [chunksGo, h, ih]

theorem chunks_flatten (b : Nat) (l : List α) : (chunks b l).flatten = l := by
  simpa using chunksGo_flatten b l []

theorem insertDocsTolerant_cons (ex : List RDoc) (d : RDoc) (ds : List RDoc) :
    insertDocsTolerant ex (d :: ds) =
      insertDocsTolerant
        (if ex.any (fun e2 => decide (e2._id = d._id)) then ex else ex ++ [d]) ds := rfl

theorem insertDocsTolerant_extend : ∀ (batch ex : List RDoc),
    ∃ t, insertDocsTolerant ex batch = ex ++ t := by
  intro batch
  induction batch with
  | nil => intro ex; exact ⟨[], by simp [insertDocsTolerant]⟩
  | cons d ds ih =>
    intro ex
    rw [insertDocsTolerant_cons]
    by_cases h : ex.any (fun e2 => decide (e2._id = d._id)) = true
    · rw [if_pos h]
      exact ih ex
    · rw [if_neg h]
      obtain ⟨t, ht⟩ := ih (ex ++ [d])
      exact ⟨[d] ++ t, by rw [ht, List.append_assoc]⟩

theorem mem_insertDocsTolerant_of_mem {x : RDoc} (ex batch : List RDoc) (hx : x ∈ ex) :
    x ∈ insertDocsTolerant ex batch := by
  obtain ⟨t, ht⟩ := insertDocsTolerant_extend batch ex
  rw [ht]
  exact List.mem_append_left t hx

theorem id_mem_insertDocsTolerant : ∀ (batch ex : List RDoc) (d : RDoc), d ∈ batch →
    ∃ e2 ∈ insertDocsTolerant ex batch, e2._id = d._id := by
  intro batch
  induction batch with
  | nil => intro ex d hd; cases hd
  | cons d0 ds ih =>
    intro ex d hd
    rw [insertDocsTolerant_cons]
    rcases List.mem_cons.mp hd with rfl | hmem
    · by_cases h : ex.any (fun e2 => decide (e2._id = d._id)) = true
      · rw [if_pos h]
        obtain ⟨e2, he2, heq⟩ := List.any_eq_true.mp h
        exact ⟨e2, mem_insertDocsTolerant_of_mem ex ds he2, of_decide_eq_true heq⟩
      · rw [if_neg h]
        exact ⟨d, mem_insertDocsTolerant_of_mem _ ds (List.mem_append_right ex
          (List.mem_cons_self d [])), rfl⟩
    · by_cases h : ex.any (fun e2 => decide (e2._id = d0._id)) = true
      · rw [if_pos h]
        exact ih ex d hmem
      · rw [if_neg h]
        exact ih _ d hmem

theorem regionFind_regionSet_self : ∀ (rs : List (String × List RDoc)) (n : String)
    (ds : List RDoc), regionFind (regionSet rs n ds) n = some ds := by
  intro rs
  induction rs with
  | nil =>
    intro n ds
    simp [regionSet, regionFind, List.find?_cons_of_pos]
  | cons e rs ih =>
    intro n ds
    by_cases h : e.fst = n
    · simp only [regionSet, if_pos h, regionFind]
      rw [List.find?_cons_of_pos _ (by simp [h])]
      rfl
    · simp only [regionSet, if_neg h, regionFind]
      rw [List.find?_cons_of_neg _ (by simp [h])]
      exact ih n ds

theorem regionFind_regionSet_ne : ∀ (rs : List (String × List RDoc)) (n m : String)
    (ds : List RDoc), ¬ m = n → regionFind (regionSet rs n ds) m = regionFind rs m := by
  intro rs
  induction rs with
  | nil =>
    intro n m ds h
    simp only [regionSet, regionFind]
    rw [List.find?_cons_of_neg _ (by simp; exact fun hh => h hh.symm)]
  | cons e rs ih =>
    intro n m ds h
    by_cases he : e.fst = n
    · have hm : ¬ e.fst = m := fun hh => h ((hh.symm.trans he).symm).symm
      simp only [regionSet, if_pos he, regionFind]
      rw [List.find?_cons_of_neg _ (by simp [he]; exact fun hh => h hh.symm),
        List.find?_cons_of_neg _ (by simp [hm])]
    · simp only [regionSet, if_neg he, regionFind]
      by_cases hm : e.fst = m
      · rw [List.find?_cons_of_pos _ (by simp [hm]), List.find?_cons_of_pos _ (by simp [hm])]
      · rw [List.find?_cons_of_neg _ (by simp [hm]), List.find?_cons_of_neg _ (by simp [hm])]
        exact ih n m ds h

theorem regionFind_regionDrop_self (rs : List (String × List RDoc)) (n : String) :
    regionFind (regionDrop rs n) n = none := by
  have hfind : (rs.filter (fun e => decide (¬ e.fst = n))).find?
      (fun e => decide (e.fst = n)) = none := by
    rw [List.find?_eq_none]
    intro x hx
    have hp := (List.mem_filter.mp hx).2
    simp only [decide_eq_true_iff] at hp ⊢
    exact hp
  rw [regionFind, regionDrop, hfind]
  rfl

theorem regionFind_regionDrop_ne : ∀ (rs : List (String × List RDoc)) (n m : String),
    ¬ n = m → regionFind (regionDrop rs m) n = regionFind rs n := by
  intro rs
  induction rs with
  | nil => intro n m h; rfl
  | cons e rs ih =>
    intro n m h
    simp only [regionDrop, regionFind, List.filter_cons]
    by_cases he : e.fst = m
    · rw [if_neg (by simp [he])]
      have hen : ¬ e.fst = n := fun hh => h (hh.symm.trans he)
      rw [List.find?_cons_of_neg _ (by simp [hen])]
      have h2 := ih n m h
      simp only [regionDrop, regionFind] at h2
      exact h2
    · rw [if_pos (by simp [he])]
      by_cases hn : e.fst = n
      · rw [List.find?_cons_of_pos _ (by simp [hn]), List.find?_cons_of_pos _ (by simp [hn])]
      · rw [List.find?_cons_of_neg _ (by simp [hn]), List.find?_cons_of_neg _ (by simp [hn])]
        have h2 := ih n m h
        simp only [regionDrop, regionFind] at h2
        exact h2

theorem tryCreate_regionFind_self (db : DB) (n : String) :
    regionFind (tryCreateCollection db n).regions n
      = some ((regionFind db.regions n).getD []) := by
  unfold tryCreateCollection
  by_cases h : (regionFind db.regions n).isSome = true
  · rw [if_pos h]
    obtain ⟨v, hv⟩ := Option.isSome_iff_exists.mp h
    rw [hv]
    rfl
  · have hn := Option.not_isSome_iff_eq_none.mp (by simpa using h)
    rw [if_neg h, hn]
    exact regionFind_regionSet_self db.regions n []

theorem tryCreate_regionFind_ne (db : DB) (n m : String) (h : ¬ m = n) :
    regionFind (tryCreateCollection db n).regions m = regionFind db.regions m := by
  unfold tryCreateCollection
  split
  · rfl
  · exact regionFind_regionSet_ne db.regions n m [] h

theorem tryCreate_orgs (db : DB) (n : String) : (tryCreateCollection db n).orgs = db.orgs := by
  unfold tryCreateCollection
  split <;> rfl

/-! ### Properties of the batched migration loop -/

theorem migrateBatches_orgs (dst : String) : ∀ (bs : List (List RDoc)) (db : DB),
    (migrateBatches dst bs db).fst.orgs = db.orgs := by
  intro bs
  induction bs with
  | nil => intro db; rfl
  | cons b bs ih =>
    intro db
    exact (ih _).trans rfl

theorem migrateBatches_regions_ne (dst n : String) (h : ¬ n = dst) :
    ∀ (bs : List (List RDoc)) (db : DB),
    regionFind (migrateBatches dst bs db).fst.regions n = regionFind db.regions n := by
  intro bs
  induction bs with
  | nil => intro db; rfl
  | cons b bs ih =>
    intro db
    refine (ih _).trans ?_
    show regionFind (regionInsertTolerant db.regions dst b) n = regionFind db.regions n
    unfold regionInsertTolerant
    exact regionFind_regionSet_ne db.regions dst n _ h

theorem migrateBatches_covers (dst : String) : ∀ (bs : List (List RDoc)) (db : DB) (d : RDoc),
    ((∃ e2 ∈ (regionFind db.regions dst).getD [], e2._id = d._id) ∨ d ∈ bs.flatten) →
    ∃ e2 ∈ (regionFind (migrateBatches dst bs db).fst.regions dst).getD [],
      e2._id = d._id := by
  intro bs
  induction bs with
  | nil =>
    intro db d h
    rcases h with h | h
    · exact h
    · simp at h
  | cons b bs ih =>
    intro db d h
    show ∃ e2 ∈ (regionFind (migrateBatches dst bs
        { db with regions := regionInsertTolerant db.regions dst b }).fst.regions dst).getD [],
      e2._id = d._id
    have hfind : regionFind (regionInsertTolerant db.regions dst b) dst
        = some (insertDocsTolerant ((regionFind db.regions dst).getD []) b) :=
      regionFind_regionSet_self db.regions dst _
    rcases h with ⟨e2, he2, heq⟩ | hd
    · apply ih
      left
      rw [show ({ db with regions := regionInsertTolerant db.regions dst b } : DB).regions
          = regionInsertTolerant db.regions dst b from rfl, hfind]
      exact ⟨e2, mem_insertDocsTolerant_of_mem _ b he2, heq⟩
    · rw [List.flatten_cons] at hd
      rcases List.mem_append.mp hd with hb | hbs
      · apply ih
        left
        rw [show ({ db with regions := regionInsertTolerant db.regions dst b } : DB).regions
            = regionInsertTolerant db.regions dst b from rfl, hfind]
        exact id_mem_insertDocsTolerant b _ d hb
      · exact ih _ d (Or.inr hbs)

theorem migrateBatches_trace (dst : String) : ∀ (bs : List (List RDoc)) (db : DB),
    ∀ ev ∈ (migrateBatches dst bs db).snd, ∃ b2, ev = Event.copyBatch dst b2 := by
  intro bs
  induction bs with
  | nil => intro db ev hev; cases hev
  | cons b bs ih =>
    intro db ev hev
    rcases List.mem_cons.mp hev with rfl | hmem
    · exact ⟨b, rfl⟩
    · exact ih _ ev hmem

/-- After the rename core (create destination, copy all chunks, drop
the source), every source document's identifier is present in the
destination region. -/
theorem rename_covers (batchSize : Nat) (db : DB) (cslug nslug : String)
    (hne : ¬ nslug = cslug) (d : RDoc)
    (hd : d ∈ (regionFind db.regions cslug).getD []) :
    ∃ e2 ∈ (regionFind (regionDrop
        (migrateBatches nslug
          (chunks batchSize ((regionFind (tryCreateCollection db nslug).regions cslug).getD []))
          (tryCreateCollection db nslug)).fst.regions cslug) nslug).getD [],
      e2._id = d._id := by
  rw [regionFind_regionDrop_ne _ _ _ hne]
  apply migrateBatches_covers
  right
  rw [chunks_flatten, tryCreate_regionFind_ne db nslug cslug (fun hh => hne hh.symm)]
  exact hd

/-- The trace of the credential phase appended to a rename trace keeps
the shape: region creation, then the copies, then the repoint, then the
source drop, then only credential-update events. -/
theorem trace_shape_general (dbAfter : DB) (orgAfter : Option OrgDoc) (upd : Updates)
    (nslug cslug : String) (oid : Nat) (ms : List Event) (e pw : Option String) (now : Nat)
    (hms : ∀ ev ∈ ms, ∃ b2, ev = Event.copyBatch nslug b2) :
    ∃ copies creds,
      (∀ ev ∈ copies, ∃ b2, ev = Event.copyBatch nslug b2) ∧
      (∀ ev ∈ creds, ∃ a2, ev = Event.credUpdate a2) ∧
      (credPhase dbAfter orgAfter upd
          (Event.createRegion nslug :: (ms ++ [Event.repoint oid nslug, Event.dropRegion cslug]))
          e pw now).trace
        = Event.createRegion nslug ::
            (copies ++ Event.repoint oid nslug :: Event.dropRegion cslug :: creds) := by
  obtain ⟨creds, htr, hcreds⟩ := credPhase_trace dbAfter orgAfter upd _ e pw now
  refine ⟨ms, creds, hms, hcreds, ?_⟩
  rw [htr]
  simp [List.append_assoc]

/-! ## Claim C2: rename migrates every document, then removes the source -/

/-- C2: for a rename with no concurrent writes, any batch size, an
existing organization, a genuinely different new slug, and no
conflicting record, the operation succeeds (reporting the repointed
name/slug/collection/timestamp), every document of the source region is
present — under its original identifier — in the destination region of
the final state, and the source region no longer exists. -/
theorem C2_rename_migrates_all (batchSize : Nat) (db : DB) (name nn : String) (now : Nat)
    (org : OrgDoc)
    (horg : orgsFindSlug db.orgs (slugify_org name) = some org)
    (hnn : ¬ nn = "")
    (hneq : ¬ slugify_org (pyStrip nn) = slugify_org name)
    (hconf : orgsFindSlug db.orgs (slugify_org (pyStrip nn)) = none) :
    (update_organization batchSize db ⟨name, some nn, none, none⟩ now).result
      = .ok ⟨some (pyStrip nn), some (slugify_org (pyStrip nn)),
             some (slugify_org (pyStrip nn)), some now⟩ ∧
    (∀ d ∈ (regionFind db.regions (slugify_org name)).getD [],
      ∃ e2 ∈ (regionFind (update_organization batchSize db
          ⟨name, some nn, none, none⟩ now).db.regions
          (slugify_org (pyStrip nn))).getD [], e2._id = d._id) ∧
    regionFind (update_organization batchSize db ⟨name, some nn, none, none⟩ now).db.regions
      (slugify_org name) = none := by
  have hts : truthyStr (some nn) = some nn := by simp [truthyStr, hnn]
  simp only [update_organization, horg, hts, if_neg hneq, hconf]
  refine ⟨?_, ?_, ?_⟩
  · rw [credPhase_none_none]
  · rw [credPhase_none_none]
    intro d hd
    exact rename_covers batchSize db (slugify_org name) (slugify_org (pyStrip nn)) hneq d hd
  · rw [credPhase_none_none]
    exact regionFind_regionDrop_self _ _

/-- C2 witness: five source documents, batch size 2 (two full batches
plus a final partial batch): renaming "Acme" to "Beta Corp" migrates
all five identifiers and drops `org_acme`. -/
theorem C2_witness :
    (orgsFindSlug dbAcme.orgs (slugify_org "Acme") = some orgAcme ∧
      ¬ ("Beta Corp" : String) = "" ∧
      ¬ slugify_org (pyStrip "Beta Corp") = slugify_org "Acme" ∧
      orgsFindSlug dbAcme.orgs (slugify_org (pyStrip "Beta Corp")) = none) ∧
    ((update_organization 2 dbAcme ⟨"Acme", some "Beta Corp", none, none⟩ 9).result
        = .ok ⟨some (pyStrip "Beta Corp"), some (slugify_org (pyStrip "Beta Corp")),
               some (slugify_org (pyStrip "Beta Corp")), some 9⟩ ∧
      (∀ d ∈ (regionFind dbAcme.regions (slugify_org "Acme")).getD [],
        ∃ e2 ∈ (regionFind (update_organization 2 dbAcme
            ⟨"Acme", some "Beta Corp", none, none⟩ 9).db.regions
            (slugify_org (pyStrip "Beta Corp"))).getD [], e2._id = d._id) ∧
      regionFind (update_organization 2 dbAcme
          ⟨"Acme", some "Beta Corp", none, none⟩ 9).db.regions (slugify_org "Acme") = none) :=
  ⟨⟨by decide, by decide, by decide, by decide⟩,
    C2_rename_migrates_all 2 dbAcme "Acme" "Beta Corp" 9 orgAcme
      (by decide) (by decide) (by decide) (by decide)⟩

/-! ## Claim C6: rename event ordering -/

/-- C6: in every executed rename (organization found, truthy new name,
different slug, no conflict) — with or without accompanying credential
updates, and whether or not the credential phase later fails — the
emitted storage trace is exactly: destination-region creation first,
then the copy batches, then the directory repoint, then the
source-region drop, followed only by credential-update events; so the
copy completes before the repoint, and the source region is dropped
only after the directory no longer references it. -/
theorem C6_rename_ordering (batchSize : Nat) (db : DB) (name nn : String)
    (e pw : Option String) (now : Nat) (org : OrgDoc)
    (horg : orgsFindSlug db.orgs (slugify_org name) = some org)
    (hnn : ¬ nn = "")
    (hneq : ¬ slugify_org (pyStrip nn) = slugify_org name)
    (hconf : orgsFindSlug db.orgs (slugify_org (pyStrip nn)) = none) :
    ∃ copies creds,
      (∀ ev ∈ copies, ∃ b2, ev = Event.copyBatch (slugify_org (pyStrip nn)) b2) ∧
      (∀ ev ∈ creds, ∃ a2, ev = Event.credUpdate a2) ∧
      (update_organization batchSize db ⟨name, some nn, e, pw⟩ now).trace
        = Event.createRegion (slugify_org (pyStrip nn)) ::
            (copies ++ Event.repoint org._id (slugify_org (pyStrip nn)) ::
              Event.dropRegion (slugify_org name) :: creds) := by
  have hts : truthyStr (some nn) = some nn := by simp [truthyStr, hnn]
  simp only [update_organization, horg, hts, if_neg hneq, hconf]
  exact trace_shape_general _ _ _ _ _ _ _ e pw now (migrateBatches_trace _ _ _)

/-- C6 witness: the concrete rename of "Acme" to "Beta Corp" produces a
trace of exactly that shape. -/
theorem C6_witness :
    (orgsFindSlug dbAcme.orgs (slugify_org "Acme") = some orgAcme ∧
      ¬ ("Beta Corp" : String) = "" ∧
      ¬ slugify_org (pyStrip "Beta Corp") = slugify_org "Acme" ∧
      orgsFindSlug dbAcme.orgs (slugify_org (pyStrip "Beta Corp")) = none) ∧
    (∃ copies creds,
      (∀ ev ∈ copies, ∃ b2, ev = Event.copyBatch (slugify_org (pyStrip "Beta Corp")) b2) ∧
      (∀ ev ∈ creds, ∃ a2, ev = Event.credUpdate a2) ∧
      (update_organization 2 dbAcme ⟨"Acme", some "Beta Corp", none, none⟩ 9).trace
        = Event.createRegion (slugify_org (pyStrip "Beta Corp")) ::
            (copies ++ Event.repoint orgAcme._id (slugify_org (pyStrip "Beta Corp")) ::
              Event.dropRegion (slugify_org "Acme") :: creds)) :=
  ⟨⟨by decide, by decide, by decide, by decide⟩,
    C6_rename_ordering 2 dbAcme "Acme" "Beta Corp" none none 9 orgAcme
      (by decide) (by decide) (by decide) (by decide)⟩

/-! ## Claim C4: cosmetic rename is a no-op on the organization record -/

/-- C4: when the requested new name derives to the organization's
current slug, `update_organization` leaves the organizations collection
and every tenant region untouched (no create, drop, or field update,
including the timestamp), and when it reports success the reported
`updates` set is empty. -/
theorem C4_cosmetic_rename_noop (batchSize : Nat) (db : DB) (name nn : String)
    (e pw : Option String) (now : Nat) (org : OrgDoc)
    (horg : orgsFindSlug db.orgs (slugify_org name) = some org)
    (hnn : ¬ nn = "")
    (heq : slugify_org (pyStrip nn) = slugify_org name) :
    (update_organization batchSize db ⟨name, some nn, e, pw⟩ now).db.orgs = db.orgs ∧
    (update_organization batchSize db ⟨name, some nn, e, pw⟩ now).db.regions = db.regions ∧
    ∀ u, (update_organization batchSize db ⟨name, some nn, e, pw⟩ now).result = .ok u →
      u = ⟨none, none, none, none⟩ := by
  have hts : truthyStr (some nn) = some nn := by simp [truthyStr, hnn]
  have hred : update_organization batchSize db ⟨name, some nn, e, pw⟩ now
      = credPhase db (some org) ⟨none, none, none, none⟩ [] e pw now := by
    simp only [update_organization, horg, hts, if_pos heq]
  rw [hred]
  exact ⟨credPhase_orgs db _ _ _ e pw now, credPhase_regions db _ _ _ e pw now,
    fun u => credPhase_result_ok db _ _ _ e pw now u⟩

/-- C4 witness: renaming "Acme" to " ACME " (same slug `org_acme`)
leaves the organization record and all regions unchanged. -/
theorem C4_witness :
    (orgsFindSlug dbAcme.orgs (slugify_org "Acme") = some orgAcme ∧
      ¬ (" ACME " : String) = "" ∧
      slugify_org (pyStrip " ACME ") = slugify_org "Acme") ∧
    ((update_organization 2 dbAcme ⟨"Acme", some " ACME ", none, none⟩ 9).db.orgs
        = dbAcme.orgs ∧
      (update_organization 2 dbAcme ⟨"Acme", some " ACME ", none, none⟩ 9).db.regions
        = dbAcme.regions ∧
      ∀ u, (update_organization 2 dbAcme ⟨"Acme", some " ACME ", none, none⟩ 9).result = .ok u →
        u = ⟨none, none, none, none⟩) :=
  ⟨⟨by decide, by decide, by decide⟩,
    C4_cosmetic_rename_noop 2 dbAcme "Acme" " ACME " none none 9 orgAcme
      (by decide) (by decide) (by decide)⟩

/-! ## Claim C5: foreign-organization delete is Forbidden and mutation-free -/

/-- C5: when the caller's verified token organization identifier
differs from the target organization record's identifier, delete fails
with 403 Forbidden and returns the input state unchanged: no region
drop, no credential deletion, no organization-record deletion. -/
theorem C5_delete_foreign_forbidden (db : DB) (p : OrgDeleteIn) (cred : Cred) (org : OrgDoc)
    (horg : orgsFindSlug db.orgs (slugify_org p.organization_name) = some org)
    (hne : ¬ toString org._id = cred.org_id) :
    delete_organization db p cred
      = (.error (.http 403 "Not authorized to delete this organization"), db) := by
  simp only [delete_organization, horg]
  rw [if_pos hne]

/-- C5 witness: a token for organization "1" against the record with
identifier 0 is rejected with 403 and the state is returned intact. -/
theorem C5_witness :
    (orgsFindSlug dbAcme.orgs (slugify_org "Acme") = some orgAcme ∧
      ¬ toString orgAcme._id = "1") ∧
    delete_organization dbAcme ⟨"Acme"⟩ ⟨adminAcme, "1"⟩
      = (.error (.http 403 "Not authorized to delete this organization"), dbAcme) :=
  ⟨⟨by decide, by decide⟩,
    C5_delete_foreign_forbidden dbAcme ⟨"Acme"⟩ ⟨adminAcme, "1"⟩ orgAcme (by decide) (by decide)⟩

/-! ## Claim C7: update needs no authentication, unlike delete -/

/-- C7: `update_organization` consumes no token and never fails with
Unauthorized (401) or Forbidden (403), for every state and payload —
any caller may rename an organization or change its admin's
credentials — whereas the delete route, run without a valid token,
fails with 401 before touching the handler. -/
theorem C7_update_requires_no_auth (batchSize : Nat) (db : DB) (p : OrgUpdateIn) (now : Nat)
    (db2 : DB) (q : OrgDeleteIn) :
    exceptAuthFailure (update_organization batchSize db p now).result = false ∧
    (delete_endpoint db2 .invalid q).fst = .error (.http 401 "Invalid token") := by
  constructor
  · simp only [update_organization]
    split
    · rfl
    · split
      · exact credPhase_no_auth _ _ _ _ _ _ _
      · split
        · exact credPhase_no_auth _ _ _ _ _ _ _
        · split
          · rfl
          · exact credPhase_no_auth _ _ _ _ _ _ _
  · rfl

/-! ## Claim C9: credential update with a missing admin record -/

/-- C9: an update request that asks for admin email or password changes
on an organization whose credential record is absent fails with the
server-side integrity classification (HTTP 500, "Admin record missing
for organization"), which is distinct from the ordinary 404 NotFound
used when the organization record itself is absent. -/
theorem C9_missing_admin_invariant (batchSize : Nat) (db : DB) (name : String)
    (e pw : Option String) (now : Nat) (org : OrgDoc)
    (horg : orgsFindSlug db.orgs (slugify_org name) = some org)
    (hreq : (e.isSome || pw.isSome) = true)
    (hadmin : db.admins.find? (fun a => decide (a.organization_id = toString org._id)) = none) :
    (update_organization batchSize db ⟨name, none, e, pw⟩ now).result
      = .error (.http 500 "Admin record missing for organization") ∧
    ¬ (ApiError.http 500 "Admin record missing for organization"
        = ApiError.http 404 "Organization not found") := by
  refine ⟨?_, by decide⟩
  simp only [update_organization, horg, truthyStr, credPhase, hreq, hadmin]
  rfl

/-- C9 witness: a state holding the organization but no admin record;
requesting an email change yields the 500 integrity failure. -/
theorem C9_witness :
    (orgsFindSlug dbNoAdmin.orgs (slugify_org "Acme") = some orgAcme ∧
      (((some "b@x.com" : Option String).isSome || (none : Option String).isSome) = true) ∧
      dbNoAdmin.admins.find? (fun a => decide (a.organization_id = toString orgAcme._id)) = none) ∧
    ((update_organization 2 dbNoAdmin ⟨"Acme", none, some "b@x.com", none⟩ 9).result
        = .error (.http 500 "Admin record missing for organization") ∧
      ¬ (ApiError.http 500 "Admin record missing for organization"
          = ApiError.http 404 "Organization not found")) :=
  ⟨⟨by decide, by decide, by decide⟩,
    C9_missing_admin_invariant 2 dbNoAdmin "Acme" (some "b@x.com") none 9 orgAcme
      (by decide) (by decide) (by decide)⟩

/-! ## Claim C8: create then get round-trips -/

theorem updateFirst_append_last {p : α → Bool} {f : α → α} (l : List α) (x : α)
    (hl : ∀ y ∈ l, p y = false) (hx : p x = true) :
    updateFirst p f (l ++ [x]) = l ++ [f x] := by
  induction l with
  | nil => simp [updateFirst, hx]
  | cons a as ih =>
    rw [List.cons_append, updateFirst, if_neg (by simp [hl a (List.mem_cons_self a as)]),
      ih (fun y hy => hl y (List.mem_cons_of_mem a hy))]
    rfl

theorem orgsFindSlug_append_hit (l : List OrgDoc) (x : OrgDoc) (slug : String)
    (hl : orgsFindSlug l slug = none) (hx : x.slug = slug) :
    orgsFindSlug (l ++ [x]) slug = some x := by
  simp only [orgsFindSlug] at hl ⊢
  rw [List.find?_append, hl, List.find?_cons_of_pos _ (by simp [hx])]
  rfl

/-- C8: whenever a (sequential) create succeeds, fetching the same
name afterwards succeeds and returns the same region (collection) name
and the same admin identifier that create reported.  The freshness
hypothesis states that the ObjectId generator never reuses an
identifier already present in the directory, which Mongo guarantees. -/
theorem C8_create_get_roundtrip (db : DB) (p : OrgCreateIn) (now : Nat) (out : CreateOut)
    (hfresh : ∀ o ∈ db.orgs, ¬ o._id = db.nextOid)
    (h : (create_organization db [] p now).fst = .ok out) :
    ∃ g : GetOut,
      (get_organization (create_organization db [] p now).snd p.organization_name).fst
        = .ok g ∧
      g.collection_name = out.collection_name ∧
      g.admin_user_id = some out.admin_user_id := by
  cases hpre : orgsFindSlug db.orgs (slugify_org (pyStrip p.organization_name)) with
  | some o =>
    simp only [create_organization, hpre] at h
    cases h
  | none =>
    have hany : db.orgs.any
        (fun o => decide (o.slug = slugify_org (pyStrip p.organization_name))) = false := by
      rw [List.any_eq_false]
      intro x hx
      have h2 := List.find?_eq_none.mp hpre x hx
      simpa using h2
    cases hadm : db.admins.any (fun a => decide
        (a._id = "admin_" ++ pyStrip (pyLower p.email) ++ "_" ++ toString now)) with
    | true =>
      simp [create_organization, hpre, orgsInsert, adminsInsert, hany, hadm] at h
    | false =>
      simp [create_organization, hpre, orgsInsert, adminsInsert, hany, hadm] at h ⊢
      subst h
      have hl : ∀ y ∈ db.orgs, decide (y._id = db.nextOid) = false := by
        intro y hy
        simp [hfresh y hy]
      simp only [get_organization]
      rw [← slugify_org_pyStrip p.organization_name]
      simp only [tryCreate_orgs]
      rw [updateFirst_append_last db.orgs _ hl (by simp)]
      rw [orgsFindSlug_append_hit _ _ _ hpre (by simp)]
      exact ⟨_, rfl, by simp, by simp⟩

/-- C8 witness: creating "Acme" on the empty state and fetching "Acme"
again returns collection `org_acme` and admin `admin_a@acme.com_0`. -/
theorem C8_witness :
    ((∀ o ∈ dbEmpty.orgs, ¬ o._id = dbEmpty.nextOid) ∧
      (create_organization dbEmpty [] createAcmeIn 0).fst = .ok createOutAcme) ∧
    (∃ g : GetOut,
      (get_organization (create_organization dbEmpty [] createAcmeIn 0).snd
          createAcmeIn.organization_name).fst = .ok g ∧
      g.collection_name = createOutAcme.collection_name ∧
      g.admin_user_id = some createOutAcme.admin_user_id) :=
  ⟨⟨by decide, by decide⟩,
    C8_create_get_roundtrip dbEmpty createAcmeIn 0 createOutAcme (by decide) (by decide)⟩

/-! ## Claim C1: what a constraint rejection of the insert produces -/

/-- C1 counterexample: a concurrent create committed `org_acme`
between the advisory pre-check (which passes on the empty directory)
and the insert; the storage layer rejects the insert, and the
operation fails with the unclassified propagated duplicate-key
exception (HTTP 500), not with the classified `OrganizationExists`
failure (HTTP 400, "Organization name already exists"). -/
theorem C1_counterexample :
    orgsFindSlug dbEmpty.orgs (slugify_org (pyStrip createAcmeIn.organization_name)) = none ∧
    (create_organization dbEmpty [orgInterfering] createAcmeIn 0).fst
      = .error (.unhandled .duplicateKey) ∧
    ¬ (create_organization dbEmpty [orgInterfering] createAcmeIn 0).fst
      = .error (.http 400 "Organization name already exists") :=
  ⟨by decide, by decide, by decide⟩

/-- C1 (amended): when the advisory pre-check passes but the storage
layer's uniqueness constraint rejects the insert (because a concurrent
create committed the slug in between), the operation fails — but with
the unclassified propagated duplicate-key exception (`insert_one` on
line 209 is not wrapped in any handler), which is distinct from the
classified `OrganizationExists` error that only the advisory pre-check
produces. -/
theorem C1_amended_constraint_rejection (db : DB) (mid : List OrgDoc) (p : OrgCreateIn)
    (now : Nat)
    (hpre : orgsFindSlug db.orgs (slugify_org (pyStrip p.organization_name)) = none)
    (hmid : (db.orgs ++ mid).any
      (fun o => decide (o.slug = slugify_org (pyStrip p.organization_name))) = true) :
    (create_organization db mid p now).fst = .error (.unhandled .duplicateKey) ∧
    ¬ (ApiError.unhandled .duplicateKey
        = .http 400 "Organization name already exists") := by
  refine ⟨?_, by decide⟩
  simp only [create_organization, hpre, orgsInsert, hmid]
  rfl

/-- C1 witness: the amended statement at the concrete interfered
state. -/
theorem C1_witness :
    (orgsFindSlug dbEmpty.orgs (slugify_org (pyStrip createAcmeIn.organization_name)) = none ∧
      (dbEmpty.orgs ++ [orgInterfering]).any
        (fun o => decide (o.slug = slugify_org (pyStrip createAcmeIn.organization_name)))
        = true) ∧
    ((create_organization dbEmpty [orgInterfering] createAcmeIn 0).fst
        = .error (.unhandled .duplicateKey) ∧
      ¬ (ApiError.unhandled .duplicateKey
          = .http 400 "Organization name already exists")) :=
  ⟨⟨by decide, by decide⟩,
    C1_amended_constraint_rejection dbEmpty [orgInterfering] createAcmeIn 0
      (by decide) (by decide)⟩

/-! ## Claim C10: login resolves credentials by email alone -/

/-- C10: `admin_login` looks up the credential record by lowercased,
stripped email only — no organization scoping — taking the first match
in the collection's natural order; when the password verifies, the
issued token carries exactly that record's admin identifier and
organization identifier, whatever organization it belongs to. -/
theorem C10_login_email_only (db : DB) (p : AdminLoginIn) (a : AdminDoc)
    (hfind : db.admins.find? (fun x => decide (x.email = pyStrip (pyLower p.email))) = some a)
    (hhash : ¬ a.password_hash.plain = "")
    (hverify : verify_password p.password a.password_hash = true) :
    (admin_login db p).fst = .ok { admin_id := a._id, org_id := a.organization_id } := by
  simp only [admin_login, hfind]
  rw [if_neg (not_or.mpr ⟨hhash, fun h2 => h2 hverify⟩)]

/-- C10 witness: two credential records share the email `a@acme.com`
but belong to organizations "0" and "7"; login with that email (in
mixed case) selects the first record and issues its identifiers. -/
theorem C10_witness :
    (dbTwoAdmins.admins.find?
        (fun x => decide (x.email = pyStrip (pyLower "A@Acme.com"))) = some adminAcme ∧
      ¬ adminAcme.password_hash.plain = "" ∧
      verify_password "secret1" adminAcme.password_hash = true) ∧
    (admin_login dbTwoAdmins ⟨"A@Acme.com", "secret1"⟩).fst
      = .ok { admin_id := "adm", org_id := "0" } :=
  ⟨⟨by decide, by decide, by decide⟩,
    C10_login_email_only dbTwoAdmins ⟨"A@Acme.com", "secret1"⟩ adminAcme
      (by decide) (by decide) (by decide)⟩

end OrgService